import Mathlib

/-! Shallow embedding of the cache-invalidation client core
(protocol handler, registration manager, operation scheduler, safe storage)
translated from the C++ sources under src/google/cacheinvalidation.
-/

namespace Invalidation

/-! Basic protobuf value types (types.pb).  Opaque payloads are modelled by
Nat or String; equality is by value, as for the C++ protos under ProtoEq. -/

/-- ObjectIdP: (source, name) identity of an object. -/
structure ObjectIdP where
  source : Nat
  name : String
deriving DecidableEq, Repr

/-- RegistrationP.OpType. -/
inductive OpType where
  | REGISTER
  | UNREGISTER
deriving DecidableEq, Repr

/-- RegistrationP: (object id, op type). -/
structure RegistrationP where
  object_id : ObjectIdP
  op_type : OpType
deriving DecidableEq, Repr

/-- InvalidationP: object-scoped notification with a version. -/
structure InvalidationP where
  object_id : ObjectIdP
  version : Nat
deriving DecidableEq, Repr

/-- RegistrationSubtree: set of object ids in a digest-prefix bucket. -/
structure RegistrationSubtree where
  registered_object : List ObjectIdP
deriving DecidableEq, Repr

/-- StatusP.Code of a per-registration server status. -/
inductive StatusCode where
  | SUCCESS
  | TRANSIENT_FAILURE
  | PERMANENT_FAILURE
deriving DecidableEq, Repr

/-- RegistrationStatus: a registration plus the status the server reports
for it. -/
structure RegistrationStatus where
  registration : RegistrationP
  status_code : StatusCode
deriving DecidableEq, Repr

/-- Statistics.ClientErrorType values used by the embedded components. -/
inductive ClientErrorType where
  | INCOMING_MESSAGE_FAILURE
  | PROTOCOL_VERSION_FAILURE
  | TOKEN_MISMATCH
  | TOKEN_MISSING_FAILURE
  | OUTGOING_MESSAGE_FAILURE
  | REGISTRATION_DISCREPANCY
deriving DecidableEq, Repr

/-- Statistics.ReceivedMessageType values. -/
inductive ReceivedMessageType where
  | TOTAL
  | TOKEN_CONTROL
  | INVALIDATION
  | REGISTRATION_STATUS
  | REGISTRATION_SYNC_REQUEST
  | INFO_REQUEST
deriving DecidableEq, Repr

/-- Statistics.SentMessageType values. -/
inductive SentMessageType where
  | TOTAL
  | INITIALIZE
  | INFO
  | INVALIDATION_ACK
  | REGISTRATION
  | REGISTRATION_SYNC
deriving DecidableEq, Repr

/-! Inbound wire messages (ServerToClientMessage and submessages). -/

/-- ServerHeader of an inbound message.  The registration summary is kept
opaque; protocol_version_major is the major component of the header
protocol version. -/
structure ServerHeader where
  client_token : String
  registration_summary : Nat
  protocol_version_major : Nat
  server_time_ms : Int
deriving DecidableEq, Repr

/-- ConfigChangeMessage with its optional next_message_delay_ms field. -/
structure ConfigChangeMessage where
  next_message_delay_ms : Option Int
deriving DecidableEq, Repr

/-- TokenControlMessage: new token plus an opaque status. -/
structure TokenControlMessage where
  new_token : String
  status : Nat
deriving DecidableEq, Repr

/-- InvalidationMessage: a list of invalidations. -/
structure InvalidationMessage where
  invalidation : List InvalidationP
deriving DecidableEq, Repr

/-- RegistrationStatusMessage: a list of registration statuses. -/
structure RegistrationStatusMessage where
  registration_status : List RegistrationStatus
deriving DecidableEq, Repr

/-- InfoRequestMessage: requested info types (opaque enum values). -/
structure InfoRequestMessage where
  info_type : List Nat
deriving DecidableEq, Repr

/-- ServerToClientMessage envelope: header plus optional submessages. -/
structure ServerToClientMessage where
  header : ServerHeader
  config_change_message : Option ConfigChangeMessage
  token_control_message : Option TokenControlMessage
  invalidation_message : Option InvalidationMessage
  registration_status_message : Option RegistrationStatusMessage
  registration_sync_request_message : Option Unit
  info_request_message : Option InfoRequestMessage
deriving DecidableEq, Repr

/-! Outbound wire messages (ClientToServerMessage and submessages). -/

/-- ClientHeader populated by InitClientHeader. -/
structure ClientHeader where
  protocol_version_major : Nat
  protocol_version_minor : Nat
  client_time_ms : Int
  message_id : String
  max_known_server_time_ms : Int
  registration_summary : Nat
  client_token : Option String
deriving DecidableEq, Repr

/-- InitializeMessage is kept opaque: only its presence matters to the
embedded protocol handler logic. -/
structure InitializeMessage where
  nonce : String
deriving DecidableEq, Repr

/-- ClientToServerMessage envelope assembled by the protocol handler.  The
repeated submessage contents are the lists the drain loops copy in. -/
structure ClientToServerMessage where
  header : Option ClientHeader
  initialize_message : Option InitializeMessage
  invalidation_ack_message : Option (List InvalidationP)
  registration_message : Option (List RegistrationP)
  registration_sync_message : Option (List RegistrationSubtree)
deriving DecidableEq, Repr

/-- ClientToServerMessage with no fields set, as built by BatchingTask. -/
def emptyC2S : ClientToServerMessage :=
  { header := none, initialize_message := none, invalidation_ack_message := none,
    registration_message := none, registration_sync_message := none }

/-- ServerMessageHeader handed to the listener: token and registration
summary from the inbound header. -/
structure ServerMessageHeader where
  token : String
  registration_summary : Nat
deriving DecidableEq, Repr

/-! Protocol handler state, environment and observable effects. -/

/-- Mutable ProtocolHandler state.  pending_registrations is the keyed
map (latest op wins per id), acked_invalidations and registration_subtrees
the value-deduplicated sets, all kept as lists. -/
structure PHState where
  message_id : Nat
  last_known_server_time_ms : Int
  next_message_send_time_ms : Int
  pending_registrations : List (ObjectIdP × OpType)
  acked_invalidations : List InvalidationP
  registration_subtrees : List RegistrationSubtree
deriving DecidableEq, Repr

/-- ProtocolHandler state right after construction: message_id 1, both
time fields 0, empty batches. -/
def phInit : PHState :=
  { message_id := 1, last_known_server_time_ms := 0, next_message_send_time_ms := 0,
    pending_registrations := [], acked_invalidations := [], registration_subtrees := [] }

/-- Environment of one protocol handler call: the pluggable message
validator (both overloads), the listener token before and after a
HandleTokenChanged upcall, the listener registration summary, the clock,
and the protocol version constants (their numeric values live in a header
that is not part of this repository fragment, so they stay abstract). -/
structure PHEnv where
  validator : ServerToClientMessage → Bool
  validatorOut : ClientToServerMessage → Bool
  clientToken : String
  tokenAfterControl : String
  registrationSummary : Nat
  nowMs : Int
  protocolMajorVersion : Nat
  protocolMinorVersion : Nat

/-- Observable effects of a protocol handler call: statistics records,
listener upcalls, and bytes handed to the transport. -/
inductive PHEffect where
  | recordError (e : ClientErrorType)
  | recordReceived (t : ReceivedMessageType)
  | recordSent (t : SentMessageType)
  | handleTokenChanged (header : ServerMessageHeader) (new_token : String) (status : Nat)
  | handleInvalidations (header : ServerMessageHeader) (invs : List InvalidationP)
  | handleRegistrationStatus (header : ServerMessageHeader) (ss : List RegistrationStatus)
  | handleRegistrationSyncRequest (header : ServerMessageHeader)
  | handleInfoMessage (header : ServerMessageHeader) (info : List Nat)
  | sendMessage (msg : ClientToServerMessage)
deriving DecidableEq, Repr

/-- Predicate singling out the listener upcalls among effects. -/
def PHEffect.isListenerUpcall : PHEffect → Bool
  | .handleTokenChanged _ _ _ => true
  | .handleInvalidations _ _ => true
  | .handleRegistrationStatus _ _ => true
  | .handleRegistrationSyncRequest _ => true
  | .handleInfoMessage _ _ => true
  | _ => false

/-- ProtocolHandler.HandleIncomingMessage, translated from
protocol-handler.cc lines 75 to 182.  Protobuf parsing is external to the
repository, so the function takes the parse result: none stands for a
byte string that does not parse to an initialized ServerToClientMessage.
Returns the new state and the effect trace in program order. -/
def HandleIncomingMessage (env : PHEnv) (s : PHState)
    (parsed : Option ServerToClientMessage) : PHState × List PHEffect :=
  match parsed with
  | none => (s, [])
  | some message =>
    if ¬ env.validator message then
      (s, [.recordError .INCOMING_MESSAGE_FAILURE])
    else
      let mh := message.header
      let header : ServerMessageHeader :=
        { token := mh.client_token, registration_summary := mh.registration_summary }
      if mh.protocol_version_major ≠ env.protocolMajorVersion then
        (s, [.recordReceived .TOTAL, .recordError .PROTOCOL_VERSION_FAILURE])
      else
        match message.config_change_message with
        | some ccm =>
          match ccm.next_message_delay_ms with
          | some d =>
            ({ s with next_message_send_time_ms := env.nowMs + d },
             [.recordReceived .TOTAL])
          | none => (s, [.recordReceived .TOTAL])
        | none =>
          if env.clientToken ≠ "" ∧ env.clientToken ≠ mh.client_token then
            (s, [.recordReceived .TOTAL, .recordError .TOKEN_MISMATCH])
          else
            let s1 := if mh.server_time_ms > s.last_known_server_time_ms then
                { s with last_known_server_time_ms := mh.server_time_ms } else s
            let tokEffs : List PHEffect :=
              match message.token_control_message with
              | some tcm =>
                [.recordReceived .TOKEN_CONTROL,
                 .handleTokenChanged header tcm.new_token tcm.status]
              | none => []
            let tokenNow : String :=
              match message.token_control_message with
              | some _ => env.tokenAfterControl
              | none => env.clientToken
            if tokenNow = "" then
              (s1, .recordReceived .TOTAL :: tokEffs)
            else
              let invEffs : List PHEffect :=
                match message.invalidation_message with
                | some im =>
                  [.recordReceived .INVALIDATION,
                   .handleInvalidations header im.invalidation]
                | none => []
              let regEffs : List PHEffect :=
                match message.registration_status_message with
                | some rm =>
                  [.recordReceived .REGISTRATION_STATUS,
                   .handleRegistrationStatus header rm.registration_status]
                | none => []
              let syncEffs : List PHEffect :=
                match message.registration_sync_request_message with
                | some _ =>
                  [.recordReceived .REGISTRATION_SYNC_REQUEST,
                   .handleRegistrationSyncRequest header]
                | none => []
              let infoEffs : List PHEffect :=
                match message.info_request_message with
                | some im =>
                  [.recordReceived .INFO_REQUEST,
                   .handleInfoMessage header im.info_type]
                | none => []
              (s1, .recordReceived .TOTAL ::
                   (tokEffs ++ invEffs ++ regEffs ++ syncEffs ++ infoEffs))

/-! Outbound path of the protocol handler. -/

/-- ProtocolHandler.InitClientHeader (protocol-handler.cc lines 368 to
384): fills the client header and post-increments message_id.  Returns
the advanced state and the header. -/
def InitClientHeader (env : PHEnv) (s : PHState) : PHState × ClientHeader :=
  ({ s with message_id := s.message_id + 1 },
   { protocol_version_major := env.protocolMajorVersion,
     protocol_version_minor := env.protocolMinorVersion,
     client_time_ms := env.nowMs,
     message_id := toString s.message_id,
     max_known_server_time_ms := s.last_known_server_time_ms,
     registration_summary := env.registrationSummary,
     client_token := if env.clientToken ≠ "" then some env.clientToken else none })

/-- Drain of acked_invalidations into the invalidation_ack_message
(protocol-handler.cc lines 308 to 319): if non-empty, copy every element
into the builder field, clear the set, record SENT INVALIDATION_ACK. -/
def drainAcks (b : ClientToServerMessage) (s : PHState) :
    ClientToServerMessage × PHState × List PHEffect :=
  if s.acked_invalidations.isEmpty then (b, s, [])
  else
    ({ b with
       invalidation_ack_message := some
         ((b.invalidation_ack_message.getD []) ++ s.acked_invalidations) },
     { s with acked_invalidations := [] },
     [.recordSent .INVALIDATION_ACK])

/-- Drain of pending_registrations into the registration_message
(protocol-handler.cc lines 322 to 334): one RegistrationP per map entry,
with the op type stored in the map; clear the map, record SENT
REGISTRATION. -/
def drainRegistrations (b : ClientToServerMessage) (s : PHState) :
    ClientToServerMessage × PHState × List PHEffect :=
  if s.pending_registrations.isEmpty then (b, s, [])
  else
    ({ b with
       registration_message := some ((b.registration_message.getD []) ++
         s.pending_registrations.map (fun p => ⟨p.1, p.2⟩)) },
     { s with pending_registrations := [] },
     [.recordSent .REGISTRATION])

/-- Drain of registration_subtrees into the registration_sync_message
(protocol-handler.cc lines 337 to 348): copy each subtree, clear the set,
record SENT REGISTRATION_SYNC. -/
def drainSubtrees (b : ClientToServerMessage) (s : PHState) :
    ClientToServerMessage × PHState × List PHEffect :=
  if s.registration_subtrees.isEmpty then (b, s, [])
  else
    ({ b with
       registration_sync_message := some
         ((b.registration_sync_message.getD []) ++ s.registration_subtrees) },
     { s with registration_subtrees := [] },
     [.recordSent .REGISTRATION_SYNC])

/-- Assembly stage of SendMessageToServer (protocol-handler.cc lines 302
to 351): populate the client header, run the three drains in source
order, and apply the extra pre-increment of message_id that precedes
validation.  Returns the assembled message, the state after assembly,
and the statistics effects of the drains. -/
def assembleMessage (env : PHEnv) (s : PHState)
    (builder : ClientToServerMessage) :
    ClientToServerMessage × PHState × List PHEffect :=
  let sh := InitClientHeader env s
  let da := drainAcks { builder with header := some sh.2 } sh.1
  let dr := drainRegistrations da.1 da.2.1
  let ds := drainSubtrees dr.1 dr.2.1
  (ds.1, { ds.2.1 with message_id := ds.2.1.message_id + 1 },
   da.2.2 ++ dr.2.2 ++ ds.2.2)

/-- ProtocolHandler.SendMessageToServer (protocol-handler.cc lines 277 to
366): quiet-period check, token precondition, assembly, validation, and
the final hand-off to the transport.  Serialization is external, so the
sendMessage effect carries the assembled message itself. -/
def SendMessageToServer (env : PHEnv) (s : PHState)
    (builder : ClientToServerMessage) : PHState × List PHEffect :=
  if s.next_message_send_time_ms > env.nowMs then
    (s, [])
  else if env.clientToken = "" ∧ builder.initialize_message = none then
    (s, [.recordError .TOKEN_MISSING_FAILURE])
  else
    let a := assembleMessage env s builder
    if ¬ env.validatorOut a.1 then
      (a.2.1, a.2.2 ++ [.recordError .OUTGOING_MESSAGE_FAILURE])
    else
      (a.2.1, a.2.2 ++ [.recordSent .TOTAL, .sendMessage a.1])

/-- Value-deduplicated insert used for the hash sets acked_invalidations
and registration_subtrees. -/
def insertDedup {α : Type} [DecidableEq α] (l : List α) (x : α) : List α :=
  if x ∈ l then l else l ++ [x]

/-- Keyed insert used for the hash map pending_registrations: the latest
op wins per object id. -/
def mapInsert {K V : Type} [DecidableEq K] (l : List (K × V)) (k : K) (v : V) :
    List (K × V) :=
  if k ∈ l.map Prod.fst then l.map (fun p => if p.1 = k then (k, v) else p)
  else l ++ [(k, v)]

/-- ProtocolHandler.SendRegistrations (protocol-handler.cc lines 251 to
258), state part: record pending_registrations[id] = op for each id. -/
def SendRegistrations (s : PHState) (object_ids : List ObjectIdP)
    (reg_op_type : OpType) : PHState :=
  { s with
    pending_registrations := object_ids.foldl
      (fun m oid => mapInsert m oid reg_op_type) s.pending_registrations }

/-- ProtocolHandler.SendInvalidationAck (protocol-handler.cc lines 260
to 266), state part: insert into the acked_invalidations set. -/
def SendInvalidationAck (s : PHState) (invalidation : InvalidationP) : PHState :=
  { s with acked_invalidations := insertDedup s.acked_invalidations invalidation }

/-- ProtocolHandler.SendRegistrationSyncSubtree (protocol-handler.cc
lines 268 to 275), state part: insert into the registration_subtrees
set. -/
def SendRegistrationSyncSubtree (s : PHState) (reg_subtree : RegistrationSubtree) :
    PHState :=
  { s with registration_subtrees := insertDedup s.registration_subtrees reg_subtree }

/-- Message ids carried by the headers of the messages a trace hands to
the transport, in order. -/
def sentMessageIds (effs : List PHEffect) : List String :=
  effs.filterMap fun e =>
    match e with
    | .sendMessage m => m.header.map ClientHeader.message_id
    | _ => none

/-! Registration manager (registration-manager.cc).  The desired set is
kept as a list with at most one entry per ObjectIdP; Contains is list
membership and Remove drops every entry for the id, mirroring the
SimpleRegistrationStore set interface the manager calls into. -/

/-- Removal of an object id from the desired-registration set. -/
def removeId (d : List ObjectIdP) (i : ObjectIdP) : List ObjectIdP :=
  d.filter (fun x => x ≠ i)

/-- Body of the HandleRegistrationStatus loop for one status entry
(registration-manager.cc lines 65 to 106): returns the updated desired
set, the statistics errors recorded, and the is_success flag pushed onto
the success vector. -/
def handleStatusEntry (d : List ObjectIdP) (rs : RegistrationStatus) :
    List ObjectIdP × List ClientErrorType × Bool :=
  if rs.status_code = StatusCode.SUCCESS then
    let in_requested_map := rs.registration.object_id ∈ d
    let is_register := rs.registration.op_type = OpType.REGISTER
    if (is_register ∧ ¬ in_requested_map) ∨ (¬ is_register ∧ in_requested_map) then
      (removeId d rs.registration.object_id,
       [ClientErrorType.REGISTRATION_DISCREPANCY], false)
    else
      (d, [], true)
  else
    (removeId d rs.registration.object_id, [], false)

/-- RegistrationManager.HandleRegistrationStatus (registration-manager.cc
lines 57 to 107): processes the status entries in order, threading the
desired set through and appending one boolean per entry. -/
def HandleRegistrationStatus (d : List ObjectIdP) :
    List RegistrationStatus → List ObjectIdP × List ClientErrorType × List Bool
  | [] => (d, [], [])
  | rs :: rest =>
    let e := handleStatusEntry d rs
    let r := HandleRegistrationStatus e.1 rest
    (r.1, e.2.1 ++ r.2.1, e.2.2 :: r.2.2)

/-- RegistrationManager.PerformOperations (registration-manager.cc lines
39 to 46): set-add for REGISTER, set-remove for UNREGISTER. -/
def PerformOperations (d : List ObjectIdP) (object_ids : List ObjectIdP)
    (reg_op_type : OpType) : List ObjectIdP :=
  match reg_op_type with
  | .REGISTER => object_ids.foldl (fun acc oid => insertDedup acc oid) d
  | .UNREGISTER => object_ids.foldl (fun acc oid => removeId acc oid) d

/-! Operation scheduler (operation-scheduler.cc).  Closures are modelled
by abstract ids; a CHECK failure is modelled as the value none. -/

/-- OperationScheduleInfo per registered operation: stored delay (in
internal time units) and the has_been_scheduled flag. -/
structure OperationScheduleInfo where
  delay : Int
  has_been_scheduled : Bool
deriving DecidableEq, Repr

/-- Abstract identity of a Closure pointer. -/
abbrev OpId := Nat

/-- Assignment into the operations_ hash map for a key the CHECK has
already found present: overwrite the stored info. -/
def opsUpdate (ops : List (OpId × OperationScheduleInfo)) (k : OpId)
    (v : OperationScheduleInfo) : List (OpId × OperationScheduleInfo) :=
  ops.map fun p => if p.1 = k then (k, v) else p

/-- OperationScheduler.SetOperation (operation-scheduler.cc lines 25 to
34), translated CHECK for CHECK: the first CHECK in the source demands
find(operation) != end, i.e. that the operation IS already present, and
only then checks delay > 0; the stored value is
OperationScheduleInfo(delay), whose constructor leaves
has_been_scheduled false.  A failed CHECK aborts the process, modelled
as none.  The NULL-pointer CHECK is not modelled since closure pointers
are abstract ids. -/
def SetOperation (ops : List (OpId × OperationScheduleInfo)) (delay : Int)
    (operation : OpId) : Option (List (OpId × OperationScheduleInfo)) :=
  if (ops.find? (fun p => p.1 == operation)).isNone then none
  else if ¬ (delay > 0) then none
  else some (opsUpdate ops operation ⟨delay, false⟩)

/-- Deduplication state of one registered operation: the
has_been_scheduled flag of its OperationScheduleInfo, the number of
wrapper closures handed to the underlying scheduler and not yet fired,
and how many times the operation has run. -/
structure OpSchedState where
  has_been_scheduled : Bool
  outstanding : Nat
  fires : Nat
deriving DecidableEq, Repr

/-- State of a freshly registered operation: not scheduled, nothing
outstanding, never fired. -/
def opSchedInit : OpSchedState := ⟨false, 0, 0⟩

/-- OperationScheduler.Schedule (operation-scheduler.cc lines 47 to 64)
for one registered operation: if has_been_scheduled is false, set it and
hand one wrapper to the underlying scheduler; otherwise do nothing. -/
def scheduleOp (s : OpSchedState) : OpSchedState :=
  if s.has_been_scheduled then s
  else { s with has_been_scheduled := true, outstanding := s.outstanding + 1 }

/-- OperationScheduler.RunAndClearScheduled (operation-scheduler.cc
lines 66 to 70): the wrapper fires, runs the closure, and resets
has_been_scheduled. -/
def fireOp (s : OpSchedState) : OpSchedState :=
  { has_been_scheduled := false, outstanding := s.outstanding - 1,
    fires := s.fires + 1 }

/-- States of one registered operation reachable from registration by
Schedule calls and wrapper firings (a wrapper can only fire while it is
outstanding). -/
inductive OpReachable : OpSchedState → Prop
  | init : OpReachable opSchedInit
  | schedule {s : OpSchedState} : OpReachable s → OpReachable (scheduleOp s)
  | fire {s : OpSchedState} : OpReachable s → 0 < s.outstanding →
      OpReachable (fireOp s)

/-! Safe storage (safe-storage.cc).  User completions are modelled by
abstract ids; running a callback is an observable event. -/

/-- Status result of a storage operation. -/
structure StorageStatus where
  success : Bool
  message : String
deriving DecidableEq, Repr

/-- Status-and-value result pair of read operations. -/
abbrev StatusStringPair := StorageStatus × String

/-- CallbackWrapper (safe-storage.cc lines 25 to 53): owns the inner
completion and the pending argument. -/
structure CallbackWrapper (α : Type) where
  callbackId : Nat
  arg : α
deriving DecidableEq, Repr

/-- Observable events of the safe storage adapter: a task scheduled on
the internal scheduler, or a user completion actually invoked. -/
inductive StorageEffect (α : Type) where
  | scheduled (delay : Int) (w : CallbackWrapper α)
  | invoked (callbackId : Nat) (arg : α)
deriving DecidableEq, Repr

/-- Scheduler.NoDelay: the zero delay used for completion re-posting. -/
def schedulerNoDelay : Int := 0

/-- CallbackWrapper.Run (safe-storage.cc lines 44 to 46): runs the inner
completion on the stored argument. -/
def CallbackWrapper.run {α : Type} (w : CallbackWrapper α) :
    List (StorageEffect α) :=
  [.invoked w.callbackId w.arg]

/-- SafeStorage.WriteCallback (safe-storage.cc lines 69 to 72): the
delegate completion schedules a wrapped delivery at no delay. -/
def WriteCallback (done : Nat) (status : StorageStatus) :
    List (StorageEffect StorageStatus) :=
  [.scheduled schedulerNoDelay ⟨done, status⟩]

/-- SafeStorage.ReadCallback (safe-storage.cc lines 79 to 84). -/
def ReadCallback (done : Nat) (read_result : StatusStringPair) :
    List (StorageEffect StatusStringPair) :=
  [.scheduled schedulerNoDelay ⟨done, read_result⟩]

/-- SafeStorage.DeleteCallback (safe-storage.cc lines 91 to 94). -/
def DeleteCallback (done : Nat) (result : Bool) :
    List (StorageEffect Bool) :=
  [.scheduled schedulerNoDelay ⟨done, result⟩]

/-- SafeStorage.ReadAllCallback (safe-storage.cc lines 101 to 106). -/
def ReadAllCallback (key_callback : Nat) (result : StatusStringPair) :
    List (StorageEffect StatusStringPair) :=
  [.scheduled schedulerNoDelay ⟨key_callback, result⟩]

/-- Runs every task an effect trace scheduled on the internal scheduler,
replacing each scheduled task by the events of running its wrapper. -/
def runScheduled {α : Type} (effs : List (StorageEffect α)) :
    List (StorageEffect α) :=
  effs.flatMap fun e =>
    match e with
    | .scheduled _ w => w.run
    | e => [e]

/-- Predicate singling out direct completion invocations. -/
def StorageEffect.isInvoked {α : Type} : StorageEffect α → Bool
  | .invoked _ _ => true
  | _ => false

/-! Concrete fixtures used by witnesses and counterexamples. -/

/-- Environment whose validators accept everything, with a session token
installed. -/
def testEnv : PHEnv :=
  { validator := fun _ => true, validatorOut := fun _ => true,
    clientToken := "T", tokenAfterControl := "T", registrationSummary := 7,
    nowMs := 1000, protocolMajorVersion := 3, protocolMinorVersion := 2 }

/-- Environment whose validators reject everything. -/
def rejectEnv : PHEnv :=
  { validator := fun _ => false, validatorOut := fun _ => false,
    clientToken := "T", tokenAfterControl := "T", registrationSummary := 7,
    nowMs := 1000, protocolMajorVersion := 3, protocolMinorVersion := 2 }

/-- Sample object id. -/
def oidX : ObjectIdP := { source := 1, name := "X" }

/-- Sample invalidation. -/
def invX : InvalidationP := { object_id := oidX, version := 5 }

/-- Sample registration subtree. -/
def subX : RegistrationSubtree := { registered_object := [oidX] }

/-- Sample inbound header matching testEnv: right version, matching
token. -/
def testHeader : ServerHeader :=
  { client_token := "T", registration_summary := 7,
    protocol_version_major := 3, server_time_ms := 50 }

/-- Sample inbound envelope carrying only a ConfigChangeMessage with a
5000 ms delay, plus an invalidation submessage that must be ignored. -/
def configChangeMsg : ServerToClientMessage :=
  { header := testHeader,
    config_change_message := some { next_message_delay_ms := some 5000 },
    token_control_message := none,
    invalidation_message := some { invalidation := [invX] },
    registration_status_message := none,
    registration_sync_request_message := none,
    info_request_message := none }

/-- Protocol handler state sitting inside a quiet period that ends at
time 2000. -/
def quietState : PHState :=
  { phInit with next_message_send_time_ms := 2000 }

/-! Claim theorems. -/

/-- C1: an inbound message that parses, validates and passes the version
check and carries a ConfigChangeMessage with next_message_delay_ms set
only moves next_message_send_time_ms to now plus the delay and returns:
the effect trace is exactly the RECEIVED TOTAL record, so no token check
runs (no TOKEN_MISMATCH can be recorded), none of the
token-control/invalidation/registration-status/sync-request/info-request
submessages reaches the listener, and last_known_server_time_ms is
untouched.  The statement holds for every client token and header token,
so the short circuit indeed precedes the token check. -/
theorem config_change_short_circuit (env : PHEnv) (s : PHState)
    (msg : ServerToClientMessage) (ccm : ConfigChangeMessage) (d : Int)
    (hv : env.validator msg = true)
    (hver : msg.header.protocol_version_major = env.protocolMajorVersion)
    (hc : msg.config_change_message = some ccm)
    (hd : ccm.next_message_delay_ms = some d) :
    HandleIncomingMessage env s (some msg) =
      ({ s with next_message_send_time_ms := env.nowMs + d },
       [.recordReceived .TOTAL]) ∧
    (∀ e ∈ (HandleIncomingMessage env s (some msg)).2,
      e.isListenerUpcall = false) ∧
    (∀ er, PHEffect.recordError er ∉ (HandleIncomingMessage env s (some msg)).2) ∧
    (HandleIncomingMessage env s (some msg)).1.last_known_server_time_ms =
      s.last_known_server_time_ms := by
  have hmain : HandleIncomingMessage env s (some msg) =
      ({ s with next_message_send_time_ms := env.nowMs + d },
       [.recordReceived .TOTAL]) := by
    simp only [HandleIncomingMessage, hv, hver, hc, hd]
    simp
  refine ⟨hmain, ?_, ?_, ?_⟩
  · intro e he
    rw [hmain] at he
    simp only [List.mem_singleton] at he
    subst he
    rfl
  · intro er hmem
    rw [hmain] at hmem
    simp at hmem
  · rw [hmain]

/-- Witness for C1 at the concrete configChangeMsg fixture. -/
theorem config_change_short_circuit_witness :
    testEnv.validator configChangeMsg = true ∧
    configChangeMsg.header.protocol_version_major = testEnv.protocolMajorVersion ∧
    HandleIncomingMessage testEnv phInit (some configChangeMsg) =
      ({ phInit with next_message_send_time_ms := testEnv.nowMs + 5000 },
       [.recordReceived .TOTAL]) :=
  ⟨rfl, rfl,
   (config_change_short_circuit testEnv phInit configChangeMsg
     { next_message_delay_ms := some 5000 } 5000 rfl rfl rfl rfl).1⟩

/-- C4: a SendMessageToServer call made while next_message_send_time_ms
exceeds the current time produces no transport call, records no error
statistic, and leaves the three pending-batch collections unchanged, so
a later send can still carry their contents. -/
theorem quiet_period_send_dropped (env : PHEnv) (s : PHState)
    (b : ClientToServerMessage)
    (h : s.next_message_send_time_ms > env.nowMs) :
    (∀ m, PHEffect.sendMessage m ∉ (SendMessageToServer env s b).2) ∧
    (∀ er, PHEffect.recordError er ∉ (SendMessageToServer env s b).2) ∧
    (SendMessageToServer env s b).1.pending_registrations =
      s.pending_registrations ∧
    (SendMessageToServer env s b).1.acked_invalidations =
      s.acked_invalidations ∧
    (SendMessageToServer env s b).1.registration_subtrees =
      s.registration_subtrees := by
  have hr : SendMessageToServer env s b = (s, []) := by
    simp [SendMessageToServer, h]
  rw [hr]
  simp

/-- Witness for C4: a send attempted at time 1000 during a quiet period
ending at 2000, with a pending invalidation ack in the batch. -/
theorem quiet_period_send_dropped_witness :
    quietState.next_message_send_time_ms > testEnv.nowMs ∧
    (SendMessageToServer testEnv
      (SendInvalidationAck quietState invX) emptyC2S).1.acked_invalidations =
      (SendInvalidationAck quietState invX).acked_invalidations :=
  ⟨by decide,
   (quiet_period_send_dropped testEnv (SendInvalidationAck quietState invX)
     emptyC2S (by decide)).2.2.2.1⟩

/-- C5 counterexample: on an unparseable inbound byte string the code
only logs a warning and returns, so INCOMING_MESSAGE_FAILURE is recorded
zero times, not exactly once as claimed. -/
theorem unparseable_records_no_error :
    HandleIncomingMessage testEnv phInit none = (phInit, []) ∧
    ¬ ((HandleIncomingMessage testEnv phInit none).2.count
        (PHEffect.recordError ClientErrorType.INCOMING_MESSAGE_FAILURE) = 1) := by
  constructor
  · rfl
  · decide

/-- C5 amended: an unparseable inbound byte string is dropped with no
effect at all (no statistic, no listener callback, state unchanged); an
inbound message that parses but fails the message validator records
INCOMING_MESSAGE_FAILURE exactly once, is dropped with the state
unchanged, and invokes no listener callback. -/
theorem incoming_failure_handling (env : PHEnv) (s : PHState)
    (msg : ServerToClientMessage) (hv : env.validator msg = false) :
    HandleIncomingMessage env s none = (s, []) ∧
    HandleIncomingMessage env s (some msg) =
      (s, [.recordError .INCOMING_MESSAGE_FAILURE]) ∧
    (HandleIncomingMessage env s (some msg)).2.count
      (PHEffect.recordError ClientErrorType.INCOMING_MESSAGE_FAILURE) = 1 ∧
    (∀ e ∈ (HandleIncomingMessage env s (some msg)).2,
      e.isListenerUpcall = false) := by
  have hmain : HandleIncomingMessage env s (some msg) =
      (s, [.recordError .INCOMING_MESSAGE_FAILURE]) := by
    simp [HandleIncomingMessage, hv]
  refine ⟨rfl, hmain, ?_, ?_⟩
  · rw [hmain]
    simp
  · intro e he
    rw [hmain] at he
    simp only [List.mem_singleton] at he
    subst he
    rfl

/-- Witness for C5 amended, with the all-rejecting validator. -/
theorem incoming_failure_handling_witness :
    rejectEnv.validator configChangeMsg = false ∧
    HandleIncomingMessage rejectEnv phInit (some configChangeMsg) =
      (phInit, [.recordError .INCOMING_MESSAGE_FAILURE]) :=
  ⟨rfl,
   (incoming_failure_handling rejectEnv phInit configChangeMsg rfl).2.1⟩

/-- C6: evaluation of the modelled SetOperation shows the inverted CHECK
polarity: registering a fresh operation with a positive delay aborts the
process (the first CHECK demands the operation be already present),
while re-registering an existing operation passes the CHECK and silently
overwrites its schedule info, contradicting both the claim and the
CHECK message in the source, which calls the found case
"operation already set". -/
theorem set_operation_check_inverted :
    SetOperation [] 100 1 = none ∧
    SetOperation [(1, { delay := 50, has_been_scheduled := true })] 100 1 =
      some [(1, { delay := 100, has_been_scheduled := false })] := by
  decide

/-- C9: every SafeStorage delegate completion invokes no user completion
directly; it schedules exactly one zero-delay task on the internal
scheduler, whose wrapper, when run, invokes the user completion with
exactly the result value the delegate produced.  Stated for all four
operations (write, read, delete, read-all). -/
theorem safe_storage_reposts_completions (done : Nat) (st : StorageStatus)
    (rr : StatusStringPair) (ok : Bool) :
    (WriteCallback done st).filter (fun e => e.isInvoked) = [] ∧
    WriteCallback done st = [.scheduled schedulerNoDelay ⟨done, st⟩] ∧
    runScheduled (WriteCallback done st) = [.invoked done st] ∧
    (ReadCallback done rr).filter (fun e => e.isInvoked) = [] ∧
    ReadCallback done rr = [.scheduled schedulerNoDelay ⟨done, rr⟩] ∧
    runScheduled (ReadCallback done rr) = [.invoked done rr] ∧
    (DeleteCallback done ok).filter (fun e => e.isInvoked) = [] ∧
    DeleteCallback done ok = [.scheduled schedulerNoDelay ⟨done, ok⟩] ∧
    runScheduled (DeleteCallback done ok) = [.invoked done ok] ∧
    (ReadAllCallback done rr).filter (fun e => e.isInvoked) = [] ∧
    ReadAllCallback done rr = [.scheduled schedulerNoDelay ⟨done, rr⟩] ∧
    runScheduled (ReadAllCallback done rr) = [.invoked done rr] := by
  refine ⟨rfl, rfl, rfl, rfl, rfl, rfl, rfl, rfl, rfl, rfl, rfl, rfl⟩

/-- C2: reconciliation of server-reported registration statuses.  For
every entry: on SUCCESS with a discrepancy (op type REGISTER exactly
when the id is absent from the desired set) the id is removed,
REGISTRATION_DISCREPANCY is recorded and false is reported; on SUCCESS
without discrepancy true is reported and the desired set is untouched;
on a non-SUCCESS status the id is removed and false is reported.  The
success vector gains exactly one boolean per entry, produced in entry
order with the desired set threaded through. -/
theorem registration_status_reconciliation :
    (∀ d ss, ((HandleRegistrationStatus d ss).2.2).length = ss.length) ∧
    (∀ d rs,
      (rs.status_code = StatusCode.SUCCESS →
        ((rs.registration.op_type = OpType.REGISTER) ↔
          rs.registration.object_id ∉ d) →
        handleStatusEntry d rs =
          (removeId d rs.registration.object_id,
           [ClientErrorType.REGISTRATION_DISCREPANCY], false) ∧
        rs.registration.object_id ∉ (handleStatusEntry d rs).1) ∧
      (rs.status_code = StatusCode.SUCCESS →
        ¬ ((rs.registration.op_type = OpType.REGISTER) ↔
            rs.registration.object_id ∉ d) →
        handleStatusEntry d rs = (d, [], true)) ∧
      (rs.status_code ≠ StatusCode.SUCCESS →
        handleStatusEntry d rs =
          (removeId d rs.registration.object_id, [], false) ∧
        rs.registration.object_id ∉ (handleStatusEntry d rs).1)) ∧
    (∀ d rs rest,
      ((HandleRegistrationStatus d (rs :: rest)).2.2) =
        (handleStatusEntry d rs).2.2 ::
          ((HandleRegistrationStatus (handleStatusEntry d rs).1 rest).2.2)) := by
  have hnotmem : ∀ (d : List ObjectIdP) (i : ObjectIdP), i ∉ removeId d i := by
    intro d i hmem
    simp [removeId, List.mem_filter] at hmem
  refine ⟨?_, ?_, ?_⟩
  · intro d ss
    induction ss generalizing d with
    | nil => rfl
    | cons rs rest ih =>
      simp [HandleRegistrationStatus, ih]
  · intro d rs
    refine ⟨?_, ?_, ?_⟩
    · intro hs hx
      have heq : handleStatusEntry d rs =
          (removeId d rs.registration.object_id,
           [ClientErrorType.REGISTRATION_DISCREPANCY], false) := by
        unfold handleStatusEntry
        rw [if_pos hs, if_pos]
        tauto
      exact ⟨heq, by rw [heq]; exact hnotmem _ _⟩
    · intro hs hx
      unfold handleStatusEntry
      rw [if_pos hs, if_neg]
      tauto
    · intro hs
      have heq : handleStatusEntry d rs =
          (removeId d rs.registration.object_id, [], false) := by
        unfold handleStatusEntry
        rw [if_neg hs]
      exact ⟨heq, by rw [heq]; exact hnotmem _ _⟩
  · intro d rs rest
    rfl

/-- Witness for C2 at scenario S3: the client desires oidX, the server
reports a successful UNREGISTER for it; the entry is reported failed,
the id removed, and REGISTRATION_DISCREPANCY recorded. -/
theorem registration_status_reconciliation_witness :
    handleStatusEntry [oidX]
      { registration := { object_id := oidX, op_type := OpType.UNREGISTER },
        status_code := StatusCode.SUCCESS } =
      (removeId [oidX] oidX, [ClientErrorType.REGISTRATION_DISCREPANCY], false) ∧
    ((HandleRegistrationStatus [oidX]
      [{ registration := { object_id := oidX, op_type := OpType.UNREGISTER },
         status_code := StatusCode.SUCCESS }]).2.2).length = 1 :=
  ⟨(registration_status_reconciliation.2.1 [oidX]
      { registration := { object_id := oidX, op_type := OpType.UNREGISTER },
        status_code := StatusCode.SUCCESS } |>.1 rfl (by decide)).1,
   registration_status_reconciliation.1 [oidX] _⟩

/-- Invariant of the scheduler deduplication state: the number of
outstanding wrapper closures is 1 while has_been_scheduled is set and 0
otherwise. -/
theorem opReachable_outstanding {s : OpSchedState} (h : OpReachable s) :
    s.outstanding = if s.has_been_scheduled then 1 else 0 := by
  induction h with
  | init => rfl
  | @schedule t _ ih =>
    by_cases hs : t.has_been_scheduled
    · simpa [scheduleOp, hs] using ih
    · simp [scheduleOp, hs] at ih ⊢
      omega
  | @fire t _ hpos ih =>
    by_cases hs : t.has_been_scheduled
    · simp [fireOp, hs] at ih ⊢
      omega
    · simp [fireOp, hs] at ih ⊢
      omega

/-- C7: at every reachable state of a registered operation at most one
deferred invocation is outstanding; Schedule is a no-op while
has_been_scheduled is set and otherwise hands exactly one wrapper to the
scheduler while setting the flag; a firing runs the operation once and
resets the flag; and after a firing a subsequent Schedule leaves exactly
one invocation outstanding again. -/
theorem operation_scheduler_dedup {s : OpSchedState} (h : OpReachable s) :
    s.outstanding ≤ 1 ∧
    s.outstanding = (if s.has_been_scheduled then 1 else 0) ∧
    (s.has_been_scheduled = true → scheduleOp s = s) ∧
    (s.has_been_scheduled = false →
      (scheduleOp s).outstanding = s.outstanding + 1 ∧
      (scheduleOp s).has_been_scheduled = true) ∧
    ((fireOp s).has_been_scheduled = false ∧
      (fireOp s).fires = s.fires + 1) ∧
    (0 < s.outstanding →
      (fireOp s).outstanding = 0 ∧
      (scheduleOp (fireOp s)).outstanding = 1) := by
  have hinv := opReachable_outstanding h
  refine ⟨?_, hinv, ?_, ?_, ⟨rfl, rfl⟩, ?_⟩
  · rw [hinv]
    split <;> omega
  · intro hs
    simp [scheduleOp, hs]
  · intro hs
    simp [scheduleOp, hs]
  · intro hpos
    have hone : s.outstanding = 1 := by
      rw [hinv] at hpos ⊢
      revert hpos
      split <;> omega
    simp [fireOp, scheduleOp, hone]

/-- Witness for C7 at the state reached by one Schedule call on a
freshly registered operation. -/
theorem operation_scheduler_dedup_witness :
    (scheduleOp opSchedInit).outstanding ≤ 1 ∧
    (scheduleOp (fireOp (scheduleOp opSchedInit))).outstanding = 1 :=
  ⟨(operation_scheduler_dedup (OpReachable.schedule OpReachable.init)).1,
   ((operation_scheduler_dedup (OpReachable.schedule OpReachable.init)).2.2.2.2.2
     (by decide)).2⟩

/-! Supporting lemmas about the outbound assembly stage. -/

/-- State part of the assembly: all three batch collections are cleared,
message_id has advanced by two, and the drain effects are statistics
records only. -/
theorem assembleMessage_state (env : PHEnv) (s : PHState)
    (b : ClientToServerMessage) :
    (assembleMessage env s b).2.1.acked_invalidations = [] ∧
    (assembleMessage env s b).2.1.pending_registrations = [] ∧
    (assembleMessage env s b).2.1.registration_subtrees = [] ∧
    (assembleMessage env s b).2.1.message_id = s.message_id + 2 ∧
    (assembleMessage env s b).1.header = some (InitClientHeader env s).2 ∧
    (∀ e ∈ (assembleMessage env s b).2.2, ∃ t, e = PHEffect.recordSent t) := by
  unfold assembleMessage InitClientHeader
  cases h1 : s.acked_invalidations <;>
    cases h2 : s.pending_registrations <;>
      cases h3 : s.registration_subtrees <;>
        simp_all [drainAcks, drainRegistrations, drainSubtrees]

/-- Message part of the assembly for a builder whose batch submessages
are unset: each submessage carries exactly the entry-state collection. -/
theorem assembleMessage_msg (env : PHEnv) (s : PHState)
    (b : ClientToServerMessage)
    (hb1 : b.invalidation_ack_message = none)
    (hb2 : b.registration_message = none)
    (hb3 : b.registration_sync_message = none) :
    (assembleMessage env s b).1.invalidation_ack_message.getD [] =
      s.acked_invalidations ∧
    (assembleMessage env s b).1.registration_message.getD [] =
      s.pending_registrations.map (fun p => ⟨p.1, p.2⟩) ∧
    (assembleMessage env s b).1.registration_sync_message.getD [] =
      s.registration_subtrees := by
  unfold assembleMessage InitClientHeader
  cases h1 : s.acked_invalidations <;>
    cases h2 : s.pending_registrations <;>
      cases h3 : s.registration_subtrees <;>
        simp_all [drainAcks, drainRegistrations, drainSubtrees]

/-- Shape of SendMessageToServer once the quiet-period and token checks
have passed. -/
theorem sendMessage_eq_of_checks (env : PHEnv) (s : PHState)
    (b : ClientToServerMessage)
    (hq : ¬ s.next_message_send_time_ms > env.nowMs)
    (ht : ¬ (env.clientToken = "" ∧ b.initialize_message = none)) :
    SendMessageToServer env s b =
      (if ¬ env.validatorOut (assembleMessage env s b).1 then
        ((assembleMessage env s b).2.1,
         (assembleMessage env s b).2.2 ++
           [.recordError .OUTGOING_MESSAGE_FAILURE])
      else
        ((assembleMessage env s b).2.1,
         (assembleMessage env s b).2.2 ++
           [.recordSent .TOTAL, .sendMessage (assembleMessage env s b).1])) := by
  unfold SendMessageToServer
  rw [if_neg hq, if_neg ht]

/-- C3: whenever SendMessageToServer hands an assembled message to the
transport, the three batch collections are empty afterwards, and every
element they held at entry occurs exactly once in the corresponding
submessage of the transported message (pending registrations with the
op type stored in the map), given the container invariants: the two
sets hold no duplicates, the map has one entry per id, and the builder
(as at every call site) starts with the batch submessages unset. -/
theorem send_to_server_drains_batches (env : PHEnv) (s : PHState)
    (b : ClientToServerMessage) (m : ClientToServerMessage)
    (hb1 : b.invalidation_ack_message = none)
    (hb2 : b.registration_message = none)
    (hb3 : b.registration_sync_message = none)
    (hn1 : s.acked_invalidations.Nodup)
    (hn2 : (s.pending_registrations.map Prod.fst).Nodup)
    (hn3 : s.registration_subtrees.Nodup)
    (hsent : PHEffect.sendMessage m ∈ (SendMessageToServer env s b).2) :
    (SendMessageToServer env s b).1.acked_invalidations = [] ∧
    (SendMessageToServer env s b).1.pending_registrations = [] ∧
    (SendMessageToServer env s b).1.registration_subtrees = [] ∧
    (∀ inv ∈ s.acked_invalidations,
      (m.invalidation_ack_message.getD []).count inv = 1) ∧
    (∀ p ∈ s.pending_registrations,
      (m.registration_message.getD []).count ⟨p.1, p.2⟩ = 1) ∧
    (∀ t ∈ s.registration_subtrees,
      (m.registration_sync_message.getD []).count t = 1) := by
  by_cases hq : s.next_message_send_time_ms > env.nowMs
  · have : SendMessageToServer env s b = (s, []) := by
      simp [SendMessageToServer, hq]
    rw [this] at hsent
    simp at hsent
  by_cases ht : env.clientToken = "" ∧ b.initialize_message = none
  · have : SendMessageToServer env s b =
        (s, [.recordError .TOKEN_MISSING_FAILURE]) := by
      simp [SendMessageToServer, hq, ht]
    rw [this] at hsent
    simp at hsent
  have hchar := sendMessage_eq_of_checks env s b hq ht
  obtain ⟨ha1, ha2, ha3, _, _, heffs⟩ := assembleMessage_state env s b
  obtain ⟨hm1, hm2, hm3⟩ := assembleMessage_msg env s b hb1 hb2 hb3
  by_cases hv : env.validatorOut (assembleMessage env s b).1
  · have hmm : m = (assembleMessage env s b).1 := by
      rw [hchar, if_neg (by simpa using hv)] at hsent
      simp only [List.mem_append, List.mem_cons, List.mem_singleton] at hsent
      rcases hsent with h | h | h
      · obtain ⟨t, hts⟩ := heffs _ h
        cases hts
      · cases h
      · simpa using h
    subst hmm
    rw [hchar, if_neg (by simpa using hv)]
    refine ⟨ha1, ha2, ha3, ?_, ?_, ?_⟩
    · intro inv hmem
      rw [hm1]
      exact List.count_eq_one_of_mem hn1 hmem
    · intro p hmem
      rw [hm2]
      have hmapnd :
          (s.pending_registrations.map
            (fun p => RegistrationP.mk p.1 p.2)).Nodup := by
        refine List.Nodup.of_map (fun r : RegistrationP => r.object_id) ?_
        rw [List.map_map]
        simpa [Function.comp] using hn2
      exact List.count_eq_one_of_mem hmapnd
        (List.mem_map_of_mem (fun p => RegistrationP.mk p.1 p.2) hmem)
    · intro t hmem
      rw [hm3]
      exact List.count_eq_one_of_mem hn3 hmem
  · rw [hchar, if_pos (by simpa using hv)] at hsent
    simp only [List.mem_append, List.mem_singleton] at hsent
    rcases hsent with h | h
    · obtain ⟨t, hts⟩ := heffs _ h
      cases hts
    · cases h

/-- Witness for C3: one pending registration, one acked invalidation and
one subtree are all transported once and the batches end empty. -/
theorem send_to_server_drains_batches_witness :
    PHEffect.sendMessage
      (assembleMessage testEnv
        (SendRegistrationSyncSubtree
          (SendInvalidationAck
            (SendRegistrations phInit [oidX] OpType.REGISTER) invX) subX)
        emptyC2S).1 ∈
      (SendMessageToServer testEnv
        (SendRegistrationSyncSubtree
          (SendInvalidationAck
            (SendRegistrations phInit [oidX] OpType.REGISTER) invX) subX)
        emptyC2S).2 ∧
    (SendMessageToServer testEnv
      (SendRegistrationSyncSubtree
        (SendInvalidationAck
          (SendRegistrations phInit [oidX] OpType.REGISTER) invX) subX)
      emptyC2S).1.pending_registrations = [] :=
  ⟨by decide,
   (send_to_server_drains_batches testEnv
     (SendRegistrationSyncSubtree
       (SendInvalidationAck
         (SendRegistrations phInit [oidX] OpType.REGISTER) invX) subX)
     emptyC2S
     (assembleMessage testEnv
       (SendRegistrationSyncSubtree
         (SendInvalidationAck
           (SendRegistrations phInit [oidX] OpType.REGISTER) invX) subX)
       emptyC2S).1
     rfl rfl rfl (by decide) (by decide) (by decide) (by decide)).2.1⟩

/-- C8 counterexample: from the initial state, two successive sends
through an accepting environment produce headers with message ids "1"
and then "3", and the counter has advanced by two after the first send,
refuting the claim that the counter advances by exactly one per message
and that successive headers carry consecutive integers. -/
theorem message_id_not_consecutive :
    sentMessageIds (SendMessageToServer testEnv phInit emptyC2S).2 = ["1"] ∧
    sentMessageIds (SendMessageToServer testEnv
      (SendMessageToServer testEnv phInit emptyC2S).1 emptyC2S).2 = ["3"] ∧
    (SendMessageToServer testEnv phInit emptyC2S).1.message_id =
      phInit.message_id + 2 ∧
    ¬ (sentMessageIds (SendMessageToServer testEnv
        (SendMessageToServer testEnv phInit emptyC2S).1 emptyC2S).2 = ["2"]) := by
  refine ⟨by decide, by decide, by decide, by decide⟩

/-- C8 amended: the header message_id is the decimal string of the
message_id_ counter taken with a post-increment in InitClientHeader, but
SendMessageToServer also pre-increments the counter once more before
validation, so the counter advances by exactly two per message that
passes the quiet-period and token checks, and the headers of successive
outbound messages carry integers two apart. -/
theorem message_id_double_increment (env : PHEnv) (s : PHState)
    (b : ClientToServerMessage)
    (hq : ¬ s.next_message_send_time_ms > env.nowMs)
    (ht : ¬ (env.clientToken = "" ∧ b.initialize_message = none)) :
    (SendMessageToServer env s b).1.message_id = s.message_id + 2 ∧
    (∀ m, PHEffect.sendMessage m ∈ (SendMessageToServer env s b).2 →
      m.header.map ClientHeader.message_id = some (toString s.message_id)) := by
  have hchar := sendMessage_eq_of_checks env s b hq ht
  obtain ⟨_, _, _, hid, hhdr, heffs⟩ := assembleMessage_state env s b
  constructor
  · rw [hchar]
    split <;> simpa using hid
  · intro m hmem
    rw [hchar] at hmem
    split at hmem
    · simp only [List.mem_append, List.mem_singleton] at hmem
      rcases hmem with h | h
      · obtain ⟨t, hts⟩ := heffs _ h
        cases hts
      · cases h
    · simp only [List.mem_append, List.mem_cons, List.mem_singleton] at hmem
      rcases hmem with h | h | h
      · obtain ⟨t, hts⟩ := heffs _ h
        cases hts
      · cases h
      · have hm : m = (assembleMessage env s b).1 := by simpa using h
        rw [hm, hhdr]
        rfl

/-- Witness for C8 amended at the initial state. -/
theorem message_id_double_increment_witness :
    ¬ phInit.next_message_send_time_ms > testEnv.nowMs ∧
    (SendMessageToServer testEnv phInit emptyC2S).1.message_id =
      phInit.message_id + 2 :=
  ⟨by decide,
   (message_id_double_increment testEnv phInit emptyC2S (by decide)
     (by decide)).1⟩

/-- C10: when a send passes the quiet-period and token checks but the
assembled message fails validation (OUTGOING_MESSAGE_FAILURE is
recorded), no transport call occurs, yet the three batch collections
have already been cleared: the batched contents are lost rather than
retained for a later send. -/
theorem outgoing_failure_loses_batches (env : PHEnv) (s : PHState)
    (b : ClientToServerMessage)
    (herr : PHEffect.recordError ClientErrorType.OUTGOING_MESSAGE_FAILURE ∈
      (SendMessageToServer env s b).2) :
    (SendMessageToServer env s b).1.acked_invalidations = [] ∧
    (SendMessageToServer env s b).1.pending_registrations = [] ∧
    (SendMessageToServer env s b).1.registration_subtrees = [] ∧
    (∀ m, PHEffect.sendMessage m ∉ (SendMessageToServer env s b).2) := by
  by_cases hq : s.next_message_send_time_ms > env.nowMs
  · have : SendMessageToServer env s b = (s, []) := by
      simp [SendMessageToServer, hq]
    rw [this] at herr
    simp at herr
  by_cases ht : env.clientToken = "" ∧ b.initialize_message = none
  · have : SendMessageToServer env s b =
        (s, [.recordError .TOKEN_MISSING_FAILURE]) := by
      simp [SendMessageToServer, hq, ht]
    rw [this] at herr
    simp at herr
  have hchar := sendMessage_eq_of_checks env s b hq ht
  obtain ⟨ha1, ha2, ha3, _, _, heffs⟩ := assembleMessage_state env s b
  by_cases hv : env.validatorOut (assembleMessage env s b).1
  · rw [hchar, if_neg (by simpa using hv)] at herr
    simp only [List.mem_append] at herr
    rcases herr with h | h
    · obtain ⟨t, hts⟩ := heffs _ h
      cases hts
    · simp at h
  · rw [hchar, if_pos (by simpa using hv)]
    refine ⟨ha1, ha2, ha3, ?_⟩
    intro m hmem
    simp only [List.mem_append, List.mem_singleton] at hmem
    rcases hmem with h | h
    · obtain ⟨t, hts⟩ := heffs _ h
      cases hts
    · cases h

/-- Witness for C10: with the rejecting outbound validator and one acked
invalidation batched, the error is recorded and the batch is lost. -/
theorem outgoing_failure_loses_batches_witness :
    PHEffect.recordError ClientErrorType.OUTGOING_MESSAGE_FAILURE ∈
      (SendMessageToServer rejectEnv (SendInvalidationAck phInit invX)
        emptyC2S).2 ∧
    (SendMessageToServer rejectEnv (SendInvalidationAck phInit invX)
      emptyC2S).1.acked_invalidations = [] :=
  ⟨by decide,
   (outgoing_failure_loses_batches rejectEnv (SendInvalidationAck phInit invX)
     emptyC2S (by decide)).1⟩

end Invalidation
